import Mathlib

/-!
Shallow embedding of the MCP connection manager of the AgentNOC repository.

The Rust source is embedded as executable Lean definitions:

* `src/src/database/models.rs` — `McpServerDetails`, `McpServer`,
  `McpServer.from_row`, `CreateMcpServer`, `CreateMcpServer.validate`,
  `UpdateMcpServer`.
* `src/src/database/db.rs` — the `mcp_servers` table is modelled as a list of
  `DbRow` (one entry per SQL row, columns in declaration order); the CRUD
  functions `get_mcp_server_by_id`, `get_enabled_mcp_servers`,
  `create_mcp_server`, `update_mcp_server`, `enable_native_mcp_servers` are
  state-passing functions over that list.  SQLite specifics retained: the
  UNIQUE constraint on `name`, the CHECK on `transport_type`, AUTOINCREMENT
  ids (modelled by `nextId`, strictly larger than every existing id), and
  `ORDER BY name ASC` (modelled by an insertion sort on the name column).
  The `args`/`env` TEXT columns hold JSON produced by `serde_json::to_string`
  and read back by `serde_json::from_str`; since that round trip is the
  identity on `Vec<String>` / maps, the columns are modelled as the already
  decoded `Option (List String)` / `Option (List (String × String))`, and the
  (unreachable for rows written by this program) JSON-parse failure branch of
  `from_row` is elided.  The `enabled`/`is_native` INTEGER columns are
  modelled as `Bool` (every writer binds `b as i64` and every reader tests
  `!= 0`, so the round trip is exact).
* `src/src/mcp_clients.rs` — `connect` performs network / process I/O, so the
  per-server outcome is a parameter `connect : McpServer → Except String
  MCPConnection` of the aggregator; `connect_all_enabled` and
  `test_connection` are embedded over it.  The error log emitted for each
  failed server is made observable as the second component of the result.
* `src/src/agents/health.rs` — `tokio::time::timeout(d, f)` is modelled by
  pairing every asynchronous outcome with the duration the underlying
  operation takes (`Timed`); `timeoutRun` returns `none` exactly when that
  duration exceeds the deadline, matching the `Err(Elapsed)` arm.  The
  `services` HashMap is modelled as an association list in insertion order
  (all keys are distinct).
* `src/src/alerts/http/routes/mcp.rs` — the `test_mcp_server` route.
* `src/src/agents/alert_analyzer.rs` — the `rmcp_tools` chain of
  `run_agent_with_tools`, which pairs every tool of a connection with that
  connection's peer handle (peers are identified by `peerId`).
* `src/src/native_mcps.rs` — `get_native_mcp_servers`.
-/

namespace AgentNoc

/-- Decidable equality for `Except` results, so model outputs can be checked
on concrete inputs. -/
instance {ε α : Type _} [DecidableEq ε] [DecidableEq α] :
    DecidableEq (Except ε α) := fun x y =>
  match x, y with
  | .ok a, .ok b =>
    if h : a = b then .isTrue (by rw [h])
    else .isFalse (fun hh => h (Except.ok.inj hh))
  | .error a, .error b =>
    if h : a = b then .isTrue (by rw [h])
    else .isFalse (fun hh => h (Except.error.inj hh))
  | .ok _, .error _ => .isFalse (fun hh => Except.noConfusion hh)
  | .error _, .ok _ => .isFalse (fun hh => Except.noConfusion hh)

/-- Common metadata of an MCP server row (models `McpServerDetails`). -/
structure McpServerDetails where
  id : Nat
  name : String
  description : Option String
  enabled : Bool
  isNative : Bool
  createdAt : String
  updatedAt : String
deriving DecidableEq, Repr

/-- MCP server configuration (models the `McpServer` enum). -/
inductive McpServer where
  | http (meta : McpServerDetails) (url : String)
  | stdio (meta : McpServerDetails) (command : String) (args : List String)
      (env : List (String × String))
deriving DecidableEq, Repr

/-- Common metadata accessor (models `McpServer::meta`). -/
def McpServer.meta : McpServer → McpServerDetails
  | .http m _ => m
  | .stdio m _ _ _ => m

/-- Server name accessor (models `McpServer::name`). -/
def McpServer.name (s : McpServer) : String := s.meta.name

/-- The two transport kinds, for stating kind-preservation. -/
inductive TransportKind where
  | http
  | stdio
deriving DecidableEq, Repr

/-- The transport kind of a parsed server. -/
def McpServer.kind : McpServer → TransportKind
  | .http _ _ => .http
  | .stdio _ _ _ _ => .stdio

/-- The structurally required kind-specific field is non-empty
(`url` for Http, `command` for Stdio). -/
def McpServer.requiredFieldNonEmpty : McpServer → Prop
  | .http _ url => url ≠ ""
  | .stdio _ command _ _ => command ≠ ""

instance : DecidablePred McpServer.requiredFieldNonEmpty := by
  intro s
  cases s <;> simp [McpServer.requiredFieldNonEmpty] <;> infer_instance

/-- ASCII lowercase of one character. -/
def charLower (c : Char) : Char :=
  if 65 ≤ c.toNat ∧ c.toNat ≤ 90 then Char.ofNat (c.toNat + 32) else c

/-- Models `str::to_lowercase` as used on the `transport_type` column.  The
column is constrained by the table CHECK to `http`/`stdio`, so the ASCII
fragment of Rust's Unicode lowercasing is exact here. -/
def lowerString (s : String) : String := ⟨s.data.map charLower⟩

/-- Models `McpServer::from_row`: turn database column values into a parsed
`McpServer`, rejecting unknown transport kinds and missing or empty required
fields. -/
def McpServer.from_row (id : Nat) (name : String) (description : Option String)
    (transportType : String) (url : Option String) (command : Option String)
    (args : Option (List String)) (env : Option (List (String × String)))
    (enabled : Bool) (isNative : Bool) (createdAt : String) (updatedAt : String) :
    Except String McpServer :=
  match lowerString transportType with
  | "http" =>
    match url with
    | none => .error "HTTP transport requires a URL"
    | some u =>
      if u = "" then .error "HTTP transport requires a non-empty URL"
      else .ok (.http
        ⟨id, name, description, enabled, isNative, createdAt, updatedAt⟩ u)
  | "stdio" =>
    match command with
    | none => .error "Stdio transport requires a command"
    | some c =>
      if c = "" then .error "Stdio transport requires a non-empty command"
      else .ok (.stdio
        ⟨id, name, description, enabled, isNative, createdAt, updatedAt⟩
        c (args.getD []) (env.getD []))
  | t => .error ("Invalid transport type: " ++ t)

/-- Create request (models the `CreateMcpServer` enum). -/
inductive CreateMcpServer where
  | http (name : String) (description : Option String) (url : String)
      (enabled : Bool)
  | stdio (name : String) (description : Option String) (command : String)
      (args : List String) (env : List (String × String)) (enabled : Bool)
deriving DecidableEq, Repr

/-- Name accessor (models `CreateMcpServer::name`). -/
def CreateMcpServer.name : CreateMcpServer → String
  | .http n _ _ _ => n
  | .stdio n _ _ _ _ _ => n

/-- Models `CreateMcpServer::validate`: non-empty name, and non-empty
kind-specific required field. -/
def CreateMcpServer.validate : CreateMcpServer → Except String Unit
  | .http n _ u _ =>
    if n = "" then .error "Name is required"
    else if u = "" then .error "HTTP transport requires a non-empty URL"
    else .ok ()
  | .stdio n _ c _ _ _ =>
    if n = "" then .error "Name is required"
    else if c = "" then .error "Stdio transport requires a non-empty command"
    else .ok ()

/-- Update request (models `UpdateMcpServer`); note it carries no transport
kind field. -/
structure UpdateMcpServer where
  name : Option String
  description : Option String
  url : Option String
  command : Option String
  args : Option (List String)
  env : Option (List (String × String))
  enabled : Option Bool
deriving DecidableEq, Repr

/-- One row of the `mcp_servers` SQLite table, columns in declaration order.
`args`/`env` hold the decoded JSON payload of the corresponding TEXT columns
(`none` models SQL NULL). -/
structure DbRow where
  id : Nat
  name : String
  description : Option String
  transportType : String
  url : Option String
  command : Option String
  args : Option (List String)
  env : Option (List (String × String))
  enabled : Bool
  isNative : Bool
  createdAt : String
  updatedAt : String
deriving DecidableEq, Repr

/-- The `mcp_servers` table state. -/
abbrev Registry := List DbRow

/-- Parse one row, with the error wrapping done at every call site of
`from_row` in `db.rs`. -/
def rowToServer (row : DbRow) : Except String McpServer :=
  match McpServer.from_row row.id row.name row.description row.transportType
      row.url row.command row.args row.env row.enabled row.isNative
      row.createdAt row.updatedAt with
  | .ok s => .ok s
  | .error e => .error ("Failed to parse MCP server: " ++ e)

/-- Models `get_mcp_server_by_id`: `SELECT ... WHERE id = ?` then `from_row`. -/
def get_mcp_server_by_id (r : Registry) (id : Nat) :
    Except String (Option McpServer) :=
  match r.find? (fun row => row.id == id) with
  | none => .ok none
  | some row =>
    match rowToServer row with
    | .ok s => .ok (some s)
    | .error e => .error e

/-- Insert a row into a list sorted ascending by name (models `ORDER BY name
ASC`). -/
def insertByName (row : DbRow) : List DbRow → List DbRow
  | [] => [row]
  | x :: xs =>
    if row.name ≤ x.name then row :: x :: xs else x :: insertByName row xs

/-- Sort rows ascending by name (models `ORDER BY name ASC`). -/
def sortByName : List DbRow → List DbRow
  | [] => []
  | x :: xs => insertByName x (sortByName xs)

/-- Parse a list of rows, aborting on the first parse failure, as the row
loop of `get_enabled_mcp_servers` does. -/
def parseRows : List DbRow → Except String (List McpServer)
  | [] => .ok []
  | row :: rest =>
    match rowToServer row with
    | .error e => .error e
    | .ok s =>
      match parseRows rest with
      | .error e => .error e
      | .ok ss => .ok (s :: ss)

/-- Models `get_enabled_mcp_servers`: `SELECT ... WHERE enabled = 1 ORDER BY
name ASC`, parsing every row. -/
def get_enabled_mcp_servers (r : Registry) : Except String (List McpServer) :=
  parseRows (sortByName (r.filter (fun row => row.enabled)))

/-- The id AUTOINCREMENT assigns to the next inserted row: strictly larger
than every existing id. -/
def nextId (r : Registry) : Nat := (r.map (fun row => row.id)).foldl max 0 + 1

/-- Models `create_mcp_server`: validate, extract columns by variant
(`args`/`env` become NULL when empty), INSERT under the UNIQUE name
constraint with `is_native = 0`, then re-read the created row by id. -/
def create_mcp_server (r : Registry) (server : CreateMcpServer) (ts : String) :
    Except String (Registry × McpServer) :=
  match server.validate with
  | .error e => .error ("Validation error: " ++ e)
  | .ok _ =>
    let cols : String × Option String × String × Option String × Option String
        × Option (List String) × Option (List (String × String)) × Bool :=
      match server with
      | .http n d u en => (n, d, "http", some u, none, none, none, en)
      | .stdio n d c a ev en =>
        (n, d, "stdio", none, some c,
          (if a.isEmpty then none else some a),
          (if ev.isEmpty then none else some ev), en)
    match cols with
    | (name, desc, ttype, url, cmd, argsJson, envJson, en) =>
      if r.any (fun row => row.name == name) then
        .error "UNIQUE constraint failed: mcp_servers.name"
      else
        let id := nextId r
        let row : DbRow :=
          ⟨id, name, desc, ttype, url, cmd, argsJson, envJson, en, false, ts, ts⟩
        let r2 := r ++ [row]
        match get_mcp_server_by_id r2 id with
        | .error e => .error e
        | .ok none => .error "Failed to retrieve created MCP server"
        | .ok (some s) => .ok (r2, s)

/-- The SET clause of the UPDATE statement of `update_mcp_server`: name,
description, url, command, args, env, enabled and updated_at change;
`transport_type`, `is_native`, `id` and `created_at` do not. -/
def applyUpdateRow (row : DbRow) (name : String) (desc : Option String)
    (url : Option String) (cmd : Option String) (argsJson : Option (List String))
    (envJson : Option (List (String × String))) (en : Bool) (ts : String) :
    DbRow :=
  ⟨row.id, name, desc, row.transportType, url, cmd, argsJson, envJson, en,
    row.isNative, row.createdAt, ts⟩

/-- Models `update_mcp_server`: read the existing row (None if absent),
merge the update over the existing values by variant, UPDATE the row under
the UNIQUE name constraint, and re-read by id.  Returns the new table state
alongside the route-visible result. -/
def update_mcp_server (r : Registry) (id : Nat) (u : UpdateMcpServer)
    (ts : String) : Except String (Registry × Option McpServer) :=
  match get_mcp_server_by_id r id with
  | .error e => .error e
  | .ok none => .ok (r, none)
  | .ok (some existing) =>
    let ex : String × Option String × Option String × Option String
        × List String × List (String × String) × Bool :=
      match existing with
      | .http meta url =>
        (meta.name, meta.description, some url, none, [], [], meta.enabled)
      | .stdio meta c a ev =>
        (meta.name, meta.description, none, some c, a, ev, meta.enabled)
    match ex with
    | (ename, edesc, eurl, ecmd, eargs, eenv, een) =>
      let name := u.name.getD ename
      let desc := u.description.or edesc
      let url := u.url.or eurl
      let cmd := u.command.or ecmd
      let args := u.args.getD eargs
      let env := u.env.getD eenv
      let en := u.enabled.getD een
      let argsJson := if args.isEmpty then none else some args
      let envJson := if env.isEmpty then none else some env
      if r.any (fun row => row.id != id && row.name == name) then
        .error "UNIQUE constraint failed: mcp_servers.name"
      else
        let r2 := r.map (fun row =>
          if row.id == id then
            applyUpdateRow row name desc url cmd argsJson envJson en ts
          else row)
        match get_mcp_server_by_id r2 id with
        | .error e => .error e
        | .ok o => .ok (r2, o)

/-- Models `delete_mcp_server`: `DELETE ... WHERE id = ?`, returning whether
a row was deleted. -/
def delete_mcp_server (r : Registry) (id : Nat) : Registry × Bool :=
  let r2 := r.filter (fun row => row.id != id)
  (r2, r2.length != r.length)

/-- Models `native_mcps::get_native_mcp_servers`: the fixed, code-defined
list of built-in server descriptors. -/
def get_native_mcp_servers : List CreateMcpServer :=
  [ .http "ripestat"
      (some "RIPEstat MCP Server for BGP and routing information")
      "https://mcp-ripestat.taihen.org/mcp" true,
    .stdio "whois"
      (some "WHOIS MCP Server for domain and IP lookups")
      "uvx"
      ["--from", "git+https://github.com/dadepo/whois-mcp.git", "whois-mcp"]
      [] true ]

/-- The row the INSERT inside `enable_native_mcp_servers` writes for one
built-in descriptor (`is_native = 1`; `args`/`env` NULL when empty). -/
def mkNativeRow (s : CreateMcpServer) (id : Nat) (ts : String) : DbRow :=
  match s with
  | .http n d u en => ⟨id, n, d, "http", some u, none, none, none, en, true, ts, ts⟩
  | .stdio n d c a ev en =>
    ⟨id, n, d, "stdio", none, some c,
      (if a.isEmpty then none else some a),
      (if ev.isEmpty then none else some ev), en, true, ts, ts⟩

/-- The descriptor loop of `enable_native_mcp_servers(_, true)`: for each
built-in descriptor, skip when a row with the same name and `is_native = 1`
exists, otherwise INSERT — which aborts the call with a UNIQUE violation when
any row (native or not) already holds that name.  Inserts performed before an
abort remain committed (the loop runs outside any transaction), so the
function returns the table state reached together with the optional error. -/
def seedLoop (ts : String) : List CreateMcpServer → Registry →
    Registry × Option String
  | [], r => (r, none)
  | s :: rest, r =>
    if r.any (fun row => row.name == s.name && row.isNative) then
      seedLoop ts rest r
    else if r.any (fun row => row.name == s.name) then
      (r, some "UNIQUE constraint failed: mcp_servers.name")
    else
      seedLoop ts rest (r ++ [mkNativeRow s (nextId r) ts])

/-- Models `enable_native_mcp_servers`: seed the built-in descriptors when
`enabled = true`, otherwise `DELETE ... WHERE is_native = 1`. -/
def enable_native_mcp_servers (r : Registry) (enabled : Bool) (ts : String) :
    Registry × Option String :=
  if enabled then seedLoop ts get_native_mcp_servers r
  else (r.filter (fun row => !row.isNative), none)

/-- Iterate the enable operation `n` times (the state reached after `n`
consecutive enable calls). -/
def enableIter (ts : String) : Nat → Registry → Registry
  | 0, r => r
  | n + 1, r => (enable_native_mcp_servers (enableIter ts n r) true ts).1

/-- A tool advertised by a connected server. -/
structure Tool where
  name : String
  description : String
deriving DecidableEq, Repr

/-- Models `MCPConnection`: server name, discovered tools and the call
handle; `peerId` identifies the peer (each live connection exclusively owns
its own handle). -/
structure MCPConnection where
  name : String
  peerId : Nat
  tools : List Tool
deriving DecidableEq, Repr

/-- Models `MCPConnection::tool_count`. -/
def MCPConnection.tool_count (c : MCPConnection) : Nat := c.tools.length

/-- The per-server loop of `connect_all_enabled`: successes are collected in
iteration order, each failure is logged as a `(server name, error)` pair (and
counted).  The log list is returned to make the failure count observable. -/
def connectLoop (connect : McpServer → Except String MCPConnection) :
    List McpServer → List MCPConnection × List (String × String)
  | [] => ([], [])
  | s :: rest =>
    match connect s with
    | .ok c =>
      let r := connectLoop connect rest
      (c :: r.1, r.2)
    | .error e =>
      let r := connectLoop connect rest
      (r.1, (s.name, e) :: r.2)

/-- Models `connect_all_enabled`: read the enabled servers from the registry
(a read failure is the only error surfaced), early-return an empty result on
an empty list, otherwise run the per-server loop, never failing the batch. -/
def connect_all_enabled (r : Registry)
    (connect : McpServer → Except String MCPConnection) :
    Except String (List MCPConnection × List (String × String)) :=
  match get_enabled_mcp_servers r with
  | .error e => .error e
  | .ok servers =>
    if servers.isEmpty then .ok ([], [])
    else .ok (connectLoop connect servers)

/-- Models `test_connection`: one establishment attempt, returning the tool
count on success. -/
def test_connection (outcome : Except String MCPConnection) :
    Except String Nat :=
  match outcome with
  | .ok conn => .ok conn.tool_count
  | .error e => .error e

/-- An asynchronous outcome paired with the duration the underlying
operation takes to complete. -/
structure Timed (α : Type) where
  time : Nat
  result : α
deriving DecidableEq, Repr

/-- Models `tokio::time::timeout(deadline, op)`: `none` (the `Err(Elapsed)`
arm) exactly when the operation outlives the deadline, otherwise the
operation's own result. -/
def timeoutRun {α : Type} (deadline : Nat) (o : Timed α) : Option α :=
  if deadline < o.time then none else some o.result

/-- The HTTP response body of the connection-test route
(`TestConnectionResponse`). -/
structure TestConnectionResponse where
  success : Bool
  toolCount : Option Nat
  error : Option String
deriving DecidableEq, Repr

/-- Outcome of the `test_mcp_server` route: 200 with a body, or an error
status (404 / 500) with a body. -/
inductive TestRouteResult where
  | ok (body : TestConnectionResponse)
  | err (status : Nat) (body : TestConnectionResponse)
deriving DecidableEq, Repr

/-- Models the `test_mcp_server` route: look the server up by id (500 on a
database error, 404 when absent), then call `test_connection` on the
establishment attempt.  The attempt's duration (`Timed`) is available but —
exactly as in the source — no deadline is applied: only `.result` is
consulted. -/
def test_mcp_server (r : Registry) (id : Nat)
    (connectOf : McpServer → Timed (Except String MCPConnection)) :
    TestRouteResult :=
  match get_mcp_server_by_id r id with
  | .error _ => .err 500 ⟨false, none, some "Database error"⟩
  | .ok none => .err 404 ⟨false, none, some "Server not found"⟩
  | .ok (some s) =>
    match test_connection (connectOf s).result with
    | .ok n => .ok ⟨true, some n, none⟩
    | .error e => .ok ⟨false, none, some e⟩

/-- The health report of `agents/health.rs` (`services` is an association
list in insertion order). -/
structure HealthStatus where
  status : String
  services : List (String × String)
deriving DecidableEq, Repr

/-- Models `agents/health.rs::run`: probe the hardcoded ripestat target with
a 3-second deadline and the hardcoded whois target with a 5-second one,
recording `healthy`, `error: …` or `timeout` per service and downgrading the
overall status to `unhealthy` on any failure; the LLM client check always
reports healthy.  The two establishment outcomes are the `Timed` parameters. -/
def healthRun (rip who : Timed (Except String Unit)) : HealthStatus :=
  let st0 : HealthStatus := ⟨"healthy", []⟩
  let st1 : HealthStatus :=
    match timeoutRun 3 rip with
    | some (.ok _) => ⟨st0.status, st0.services ++ [("ripestat_mcp", "healthy")]⟩
    | some (.error e) =>
      ⟨"unhealthy", st0.services ++ [("ripestat_mcp", "error: " ++ e)]⟩
    | none => ⟨"unhealthy", st0.services ++ [("ripestat_mcp", "timeout")]⟩
  let st2 : HealthStatus :=
    match timeoutRun 5 who with
    | some (.ok _) => ⟨st1.status, st1.services ++ [("whois_mcp", "healthy")]⟩
    | some (.error e) =>
      ⟨"unhealthy", st1.services ++ [("whois_mcp", "error: " ++ e)]⟩
    | none => ⟨"unhealthy", st1.services ++ [("whois_mcp", "timeout")]⟩
  ⟨st2.status, st2.services ++ [("llm_client", "healthy")]⟩

/-- The status string one bounded probe yields (the match arms of
`healthRun`, written as a standalone function of a single probe). -/
def probeStatus (deadline : Nat) (o : Timed (Except String Unit)) : String :=
  match timeoutRun deadline o with
  | some (.ok _) => "healthy"
  | some (.error e) => "error: " ++ e
  | none => "timeout"

/-- Whether one bounded probe completes successfully within its deadline. -/
def probeOk (deadline : Nat) (o : Timed (Except String Unit)) : Bool :=
  match timeoutRun deadline o with
  | some (.ok _) => true
  | _ => false

/-- Models the `rmcp_tools` chain of `run_agent_with_tools`: every tool of
every connection is registered paired with the peer handle of the connection
that advertised it, in connection order (no connections means no tools). -/
def agentToolCatalog (connections : List MCPConnection) : List (Nat × Tool) :=
  connections.foldl (fun acc c => acc ++ c.tools.map (fun t => (c.peerId, t))) []

/-- The peer a catalog entry's invocation is routed through: the handle
stored with the entry (`rmcp_tools` binds each tool to the peer it was
registered with). -/
def invokeTarget (entry : Nat × Tool) : Nat := entry.1

/-- A parsed server matches the create request it came from: same transport
kind and identical kind-specific fields (url; or command, arguments and
environment map), and the same name. -/
def matchesCreate (s : CreateMcpServer) (m : McpServer) : Prop :=
  match s, m with
  | .http n _ u _, .http meta url => meta.name = n ∧ url = u
  | .stdio n _ c a ev _, .stdio meta c2 a2 ev2 =>
    meta.name = n ∧ c2 = c ∧ a2 = a ∧ ev2 = ev
  | _, _ => False

/-! Supporting lemmas. -/

theorem mkNativeRow_name (s : CreateMcpServer) (id : Nat) (ts : String) :
    (mkNativeRow s id ts).name = s.name := by
  cases s <;> rfl

theorem mkNativeRow_isNative (s : CreateMcpServer) (id : Nat) (ts : String) :
    (mkNativeRow s id ts).isNative = true := by
  cases s <;> rfl

theorem seedLoop_append (ts : String) (L : List CreateMcpServer) (r : Registry) :
    ∃ suf, (seedLoop ts L r).1 = r ++ suf ∧ ∀ row ∈ suf, row.isNative = true := by
  induction L generalizing r with
  | nil => exact ⟨[], by simp [seedLoop]⟩
  | cons s rest ih =>
    by_cases h1 : r.any (fun row => row.name == s.name && row.isNative)
    · simpa [seedLoop, h1] using ih r
    · by_cases h2 : r.any (fun row => row.name == s.name)
      · exact ⟨[], by simp [seedLoop, h1, h2]⟩
      · obtain ⟨suf, hsuf, hnat⟩ := ih (r ++ [mkNativeRow s (nextId r) ts])
        refine ⟨mkNativeRow s (nextId r) ts :: suf, ?_, ?_⟩
        · simp [seedLoop, h1, h2, hsuf]
        · intro row hrow
          rcases List.mem_cons.1 hrow with h | h
          · rw [h]; exact mkNativeRow_isNative s (nextId r) ts
          · exact hnat row h

theorem seedLoop_idem (ts ts2 : String) (L : List CreateMcpServer)
    (r : Registry) :
    (seedLoop ts2 L (seedLoop ts L r).1).1 = (seedLoop ts L r).1 := by
  induction L generalizing r with
  | nil => simp [seedLoop]
  | cons s rest ih =>
    by_cases h1 : r.any (fun row => row.name == s.name && row.isNative)
    · have step : seedLoop ts (s :: rest) r = seedLoop ts rest r := by
        simp [seedLoop, h1]
      obtain ⟨x, hx, hp⟩ := List.any_eq_true.1 h1
      obtain ⟨suf, hsuf, _⟩ := seedLoop_append ts rest r
      have h1b : (seedLoop ts rest r).1.any
          (fun row => row.name == s.name && row.isNative) = true := by
        rw [hsuf]
        exact List.any_eq_true.2 ⟨x, List.mem_append_left _ hx, hp⟩
      rw [step]
      rw [show seedLoop ts2 (s :: rest) (seedLoop ts rest r).1
            = seedLoop ts2 rest (seedLoop ts rest r).1 by simp [seedLoop, h1b]]
      exact ih r
    · by_cases h2 : r.any (fun row => row.name == s.name)
      · have step : (seedLoop ts (s :: rest) r).1 = r := by
          simp [seedLoop, h1, h2]
        rw [step]
        simp [seedLoop, h1, h2]
      · set row0 := mkNativeRow s (nextId r) ts with hrow0
        have step : seedLoop ts (s :: rest) r = seedLoop ts rest (r ++ [row0]) := by
          simp [seedLoop, h1, h2, hrow0]
        obtain ⟨suf, hsuf, _⟩ := seedLoop_append ts rest (r ++ [row0])
        have hmem : row0 ∈ (seedLoop ts rest (r ++ [row0])).1 := by
          rw [hsuf]
          exact List.mem_append_left _ (List.mem_append_right _ (List.mem_singleton.2 rfl))
        have h1b : (seedLoop ts rest (r ++ [row0])).1.any
            (fun row => row.name == s.name && row.isNative) = true := by
          refine List.any_eq_true.2 ⟨row0, hmem, ?_⟩
          simp [hrow0, mkNativeRow_name, mkNativeRow_isNative]
        rw [step]
        rw [show seedLoop ts2 (s :: rest) (seedLoop ts rest (r ++ [row0])).1
              = seedLoop ts2 rest (seedLoop ts rest (r ++ [row0])).1 by
            simp [seedLoop, h1b]]
        exact ih (r ++ [row0])

theorem seedLoop_filter_nonNative (ts : String) (L : List CreateMcpServer)
    (r : Registry) :
    (seedLoop ts L r).1.filter (fun row => !row.isNative)
      = r.filter (fun row => !row.isNative) := by
  obtain ⟨suf, hsuf, hnat⟩ := seedLoop_append ts L r
  rw [hsuf, List.filter_append]
  have : suf.filter (fun row => !row.isNative) = [] := by
    rw [List.filter_eq_nil_iff]
    intro a ha
    simp [hnat a ha]
  rw [this, List.append_nil]

theorem enableIter_filter_nonNative (ts : String) (n : Nat) (r : Registry) :
    (enableIter ts n r).filter (fun row => !row.isNative)
      = r.filter (fun row => !row.isNative) := by
  induction n with
  | zero => rfl
  | succ n ih =>
    show ((enable_native_mcp_servers (enableIter ts n r) true ts).1.filter
        (fun row => !row.isNative)) = _
    rw [show enable_native_mcp_servers (enableIter ts n r) true ts
          = seedLoop ts get_native_mcp_servers (enableIter ts n r) from rfl]
    rw [seedLoop_filter_nonNative]
    exact ih

/-! C7 — validation of empty required fields at creation time. -/

/-- C7: for every Http create request with an empty url and every Stdio
create request with an empty command, `validate` fails, and
`create_mcp_server` surfaces that validation error before touching the
table (uniformly in the registry state, and without any connection
attempt being modelled in `create_mcp_server` at all). -/
theorem create_rejects_empty_required_field
    (name : String) (d : Option String) (en : Bool) (args : List String)
    (env : List (String × String)) (r : Registry) (ts : String) :
    (∃ m, (CreateMcpServer.http name d "" en).validate = .error m ∧
      create_mcp_server r (.http name d "" en) ts
        = .error ("Validation error: " ++ m)) ∧
    (∃ m, (CreateMcpServer.stdio name d "" args env en).validate = .error m ∧
      create_mcp_server r (.stdio name d "" args env en) ts
        = .error ("Validation error: " ++ m)) := by
  constructor
  · by_cases hn : name = ""
    · refine ⟨"Name is required", ?_, ?_⟩ <;>
        simp [CreateMcpServer.validate, create_mcp_server, hn]
    · refine ⟨"HTTP transport requires a non-empty URL", ?_, ?_⟩ <;>
        simp [CreateMcpServer.validate, create_mcp_server, hn]
  · by_cases hn : name = ""
    · refine ⟨"Name is required", ?_, ?_⟩ <;>
        simp [CreateMcpServer.validate, create_mcp_server, hn]
    · refine ⟨"Stdio transport requires a non-empty command", ?_, ?_⟩ <;>
        simp [CreateMcpServer.validate, create_mcp_server, hn]

/-! C2 — idempotence of the native seeder, and disable semantics. -/

/-- C2: enabling the native servers twice consecutively leaves the registry
row set identical to enabling once, and disabling deletes exactly the rows
with the native flag set — leaving every non-native row unchanged — no
matter how many enable calls preceded it. -/
theorem enable_native_idempotent_and_disable
    (r : Registry) (ts1 ts2 : String) (n : Nat) :
    (enable_native_mcp_servers
        (enable_native_mcp_servers r true ts1).1 true ts2).1
      = (enable_native_mcp_servers r true ts1).1 ∧
    (enable_native_mcp_servers (enableIter ts1 n r) false ts2).1
      = r.filter (fun row => !row.isNative) := by
  constructor
  · exact seedLoop_idem ts1 ts2 get_native_mcp_servers r
  · show (enableIter ts1 n r).filter (fun row => !row.isNative) = _
    exact enableIter_filter_nonNative ts1 n r

/-! C4 — the on-demand connection test and (the absence of) its deadline. -/

/-- C4 counterexample: the on-demand test route applies no deadline.  Here
the establishment attempt takes 1000000000 seconds — far beyond every
deadline appearing in this codebase (the health probes use 3 and 5) — yet
the route reports Success with the tool count, not Timeout.  This refutes
the claim that the test wraps the attempt with a caller-supplied deadline
and reports Timeout when the deadline elapses before establishment
completes. -/
theorem test_mcp_server_no_timeout_counterexample :
    test_mcp_server
      [⟨1, "alpha", none, "http", some "https://a.example", none, none, none,
        true, false, "t0", "t0"⟩] 1
      (fun _ => ⟨1000000000, .ok ⟨"alpha", 7, [⟨"lookup", "whois lookup"⟩]⟩⟩)
      = .ok ⟨true, some 1, none⟩ := by
  decide

/-- C4 amended: the on-demand single-server connection test invokes the
establishment attempt with no deadline — its outcome is independent of how
long establishment takes — and always resolves to exactly one of
Success(tool_count) or Failure(error) (besides the 500/404 responses when
the row cannot be read or does not exist); it never reports Timeout. -/
theorem test_mcp_server_outcomes (r : Registry) (id : Nat)
    (connectOf : McpServer → Timed (Except String MCPConnection)) :
    test_mcp_server r id connectOf
      = test_mcp_server r id (fun s => ⟨0, (connectOf s).result⟩) ∧
    (test_mcp_server r id connectOf
        = .err 500 ⟨false, none, some "Database error"⟩ ∨
      test_mcp_server r id connectOf
        = .err 404 ⟨false, none, some "Server not found"⟩ ∨
      (∃ n, test_mcp_server r id connectOf = .ok ⟨true, some n, none⟩) ∨
      (∃ e, test_mcp_server r id connectOf = .ok ⟨false, none, some e⟩)) := by
  unfold test_mcp_server
  cases hg : get_mcp_server_by_id r id with
  | error e => simp
  | ok o =>
    cases o with
    | none => simp
    | some s =>
      cases hc : (connectOf s).result with
      | ok conn => simp [test_connection, hc]
      | error e => simp [test_connection, hc]

/-! C9 — per-connection tool routing in the aggregated catalog. -/

/-- C9: when two live connections each advertise a tool of the same name,
the aggregated catalog contains both as distinct entries, each paired with —
and therefore invoked through — the peer handle of the connection that
advertised it, never the other one. -/
theorem tool_catalog_same_name_distinct
    (c1 c2 : MCPConnection) (t1 t2 : Tool)
    (h1 : t1 ∈ c1.tools) (h2 : t2 ∈ c2.tools)
    (_hname : t1.name = t2.name) (hpeer : c1.peerId ≠ c2.peerId) :
    (c1.peerId, t1) ∈ agentToolCatalog [c1, c2] ∧
    (c2.peerId, t2) ∈ agentToolCatalog [c1, c2] ∧
    (c1.peerId, t1) ≠ (c2.peerId, t2) ∧
    invokeTarget (c1.peerId, t1) = c1.peerId ∧
    invokeTarget (c2.peerId, t2) = c2.peerId := by
  have hcat : agentToolCatalog [c1, c2]
      = c1.tools.map (fun t => (c1.peerId, t))
        ++ c2.tools.map (fun t => (c2.peerId, t)) := by
    simp [agentToolCatalog]
  refine ⟨?_, ?_, ?_, rfl, rfl⟩
  · rw [hcat]
    exact List.mem_append_left _ (List.mem_map_of_mem _ h1)
  · rw [hcat]
    exact List.mem_append_right _ (List.mem_map_of_mem _ h2)
  · intro hcontra
    exact hpeer (congrArg Prod.fst hcontra)

/-- C9 witness: two connections advertising a tool named `lookup` each. -/
theorem tool_catalog_same_name_distinct_witness :
    (⟨"lookup", "a lookup"⟩ : Tool) ∈ (⟨"srvA", 1, [⟨"lookup", "a lookup"⟩]⟩ : MCPConnection).tools ∧
    (⟨"lookup", "b lookup"⟩ : Tool) ∈ (⟨"srvB", 2, [⟨"lookup", "b lookup"⟩]⟩ : MCPConnection).tools ∧
    ((1 : Nat), (⟨"lookup", "a lookup"⟩ : Tool))
        ∈ agentToolCatalog [⟨"srvA", 1, [⟨"lookup", "a lookup"⟩]⟩,
            ⟨"srvB", 2, [⟨"lookup", "b lookup"⟩]⟩] ∧
    ((2 : Nat), (⟨"lookup", "b lookup"⟩ : Tool))
        ∈ agentToolCatalog [⟨"srvA", 1, [⟨"lookup", "a lookup"⟩]⟩,
            ⟨"srvB", 2, [⟨"lookup", "b lookup"⟩]⟩] := by
  refine ⟨by decide, by decide, ?_⟩
  have h := tool_catalog_same_name_distinct
    ⟨"srvA", 1, [⟨"lookup", "a lookup"⟩]⟩ ⟨"srvB", 2, [⟨"lookup", "b lookup"⟩]⟩
    ⟨"lookup", "a lookup"⟩ ⟨"lookup", "b lookup"⟩
    (by decide) (by decide) (by decide) (by decide)
  exact ⟨h.1, h.2.1⟩

/-! Health sweep lemmas shared by the health claims. -/

theorem healthRun_eq (rip who : Timed (Except String Unit)) :
    healthRun rip who =
      ⟨(if probeOk 3 rip && probeOk 5 who then "healthy" else "unhealthy"),
        [("ripestat_mcp", probeStatus 3 rip),
          ("whois_mcp", probeStatus 5 who),
          ("llm_client", "healthy")]⟩ := by
  unfold healthRun probeStatus probeOk
  rcases h3 : timeoutRun 3 rip with _ | r3
  · rcases h5 : timeoutRun 5 who with _ | r5
    · simp
    · cases r5 <;> simp
  · rcases h5 : timeoutRun 5 who with _ | r5
    · cases r3 <;> simp
    · cases r3 <;> cases r5 <;> simp

theorem probeStatus_shape (d : Nat) (o : Timed (Except String Unit)) :
    probeStatus d o = "healthy"
      ∨ (∃ e, probeStatus d o = "error: " ++ e)
      ∨ probeStatus d o = "timeout" := by
  unfold probeStatus
  rcases timeoutRun d o with _ | r
  · simp
  · cases r with
    | ok _ => simp
    | error e => exact Or.inr (Or.inl ⟨e, rfl⟩)

theorem probeStatus_timeout (d : Nat) (o : Timed (Except String Unit))
    (h : d < o.time) : probeStatus d o = "timeout" := by
  unfold probeStatus timeoutRun
  simp [h]

/-! C5 — what the periodic health sweep actually probes. -/

/-- C5 counterexample: the health sweep does not consult the registry at
all.  The concrete registry below holds an enabled server `customsrv`
(readable through `get_enabled_mcp_servers`), yet the sweep — which takes
only the outcomes of its two hardcoded probes and has no registry input —
reports exactly the fixed services `ripestat_mcp`, `whois_mcp` and
`llm_client`; `customsrv` is never probed.  This refutes the claim that the
sweep probes every enabled server from the registry. -/
theorem health_sweep_ignores_registry_counterexample :
    get_enabled_mcp_servers
        [⟨1, "customsrv", none, "http", some "https://c.example", none, none,
          none, true, false, "t0", "t0"⟩]
      = .ok [.http ⟨1, "customsrv", none, true, false, "t0", "t0"⟩
          "https://c.example"] ∧
    (healthRun ⟨1, .ok ()⟩ ⟨1, .ok ()⟩).services.map Prod.fst
      = ["ripestat_mcp", "whois_mcp", "llm_client"] ∧
    ¬ ("customsrv" ∈ (healthRun ⟨1, .ok ()⟩ ⟨1, .ok ()⟩).services.map Prod.fst) := by
  decide

/-- C5 amended: the periodic health sweep probes a fixed, code-defined pair
of built-in targets — ripestat with a 3-second deadline and whois with a
5-second one — rather than the registry's enabled servers.  Each probe has
its own deadline, each status is computed from its own outcome alone (so one
target's timeout or error never blocks, aborts or alters the probing of the
other) and is reported independently as healthy, `error: …` or timeout; the
overall status is healthy exactly when both probes succeed within their
deadlines and unhealthy otherwise. -/
theorem health_sweep_fixed_pair (rip who : Timed (Except String Unit)) :
    (healthRun rip who).services
      = [("ripestat_mcp", probeStatus 3 rip),
          ("whois_mcp", probeStatus 5 who),
          ("llm_client", "healthy")] ∧
    (healthRun rip who).status
      = (if probeOk 3 rip && probeOk 5 who then "healthy" else "unhealthy") ∧
    (probeStatus 3 rip = "healthy"
      ∨ (∃ e, probeStatus 3 rip = "error: " ++ e)
      ∨ probeStatus 3 rip = "timeout") ∧
    (probeStatus 5 who = "healthy"
      ∨ (∃ e, probeStatus 5 who = "error: " ++ e)
      ∨ probeStatus 5 who = "timeout") := by
  refine ⟨?_, ?_, probeStatus_shape 3 rip, probeStatus_shape 5 who⟩
  · rw [healthRun_eq]
  · rw [healthRun_eq]

/-! C6 — a probe outliving its deadline yields Timeout. -/

/-- C6: whenever a target's connection establishment takes longer than that
probe's deadline (3 seconds for ripestat, 5 for whois), the sweep records
the `timeout` status for it — never `healthy` and never `error: …` — and the
probe always resolves: the reported status exists and is one of the three
outcomes even when the underlying establishment would never complete. -/
theorem health_probe_timeout (rip who : Timed (Except String Unit)) :
    (3 < rip.time →
      (healthRun rip who).services.lookup "ripestat_mcp" = some "timeout") ∧
    (5 < who.time →
      (healthRun rip who).services.lookup "whois_mcp" = some "timeout") ∧
    (∃ v, (healthRun rip who).services.lookup "ripestat_mcp" = some v ∧
      (v = "healthy" ∨ (∃ e, v = "error: " ++ e) ∨ v = "timeout")) ∧
    (∃ v, (healthRun rip who).services.lookup "whois_mcp" = some v ∧
      (v = "healthy" ∨ (∃ e, v = "error: " ++ e) ∨ v = "timeout")) := by
  have hb1 : (("ripestat_mcp" : String) == "ripestat_mcp") = true := by decide
  have hb2 : (("whois_mcp" : String) == "ripestat_mcp") = false := by decide
  have hb3 : (("ripestat_mcp" : String) == "whois_mcp") = false := by decide
  have hb4 : (("whois_mcp" : String) == "whois_mcp") = true := by decide
  have hl1 : (healthRun rip who).services.lookup "ripestat_mcp"
      = some (probeStatus 3 rip) := by
    rw [healthRun_eq]
    simp [List.lookup, hb1]
  have hl2 : (healthRun rip who).services.lookup "whois_mcp"
      = some (probeStatus 5 who) := by
    rw [healthRun_eq]
    simp [List.lookup, hb3, hb4]
  refine ⟨?_, ?_, ?_, ?_⟩
  · intro h
    rw [hl1, probeStatus_timeout 3 rip h]
  · intro h
    rw [hl2, probeStatus_timeout 5 who h]
  · exact ⟨probeStatus 3 rip, hl1, probeStatus_shape 3 rip⟩
  · exact ⟨probeStatus 5 who, hl2, probeStatus_shape 5 who⟩

/-- C6 witness: both probes outlive their deadlines (10 > 3 and 10 > 5) and
both are reported as `timeout`. -/
theorem health_probe_timeout_witness :
    ((3 : Nat) < 10 ∧
      (healthRun ⟨10, .error "refused"⟩ ⟨10, .ok ()⟩).services.lookup "ripestat_mcp"
        = some "timeout") ∧
    ((5 : Nat) < 10 ∧
      (healthRun ⟨10, .error "refused"⟩ ⟨10, .ok ()⟩).services.lookup "whois_mcp"
        = some "timeout") :=
  ⟨⟨by decide,
      (health_probe_timeout ⟨10, .error "refused"⟩ ⟨10, .ok ()⟩).1 (by decide)⟩,
    ⟨by decide,
      (health_probe_timeout ⟨10, .error "refused"⟩ ⟨10, .ok ()⟩).2.1 (by decide)⟩⟩

/-! C1 — at-least-effort aggregation over the enabled servers. -/

theorem connectLoop_spec (connect : McpServer → Except String MCPConnection)
    (servers : List McpServer) :
    (connectLoop connect servers).2.length
        = servers.countP (fun s => !(connect s).toBool) ∧
    (connectLoop connect servers).1.length
        + (connectLoop connect servers).2.length = servers.length := by
  induction servers with
  | nil => simp [connectLoop]
  | cons s rest ih =>
    cases hc : connect s with
    | ok c =>
      have hb : (!(connect s).toBool) = false := by
        simp [hc, Except.toBool]
      simp only [connectLoop, hc, List.countP_cons, hb]
      constructor
      · simpa using ih.1
      · simp only [List.length_cons]
        omega
    | error e =>
      have hb : (!(connect s).toBool) = true := by
        simp [hc, Except.toBool]
      simp only [connectLoop, hc, List.countP_cons, hb]
      constructor
      · simp [ih.1, Except.toBool]
      · simp only [List.length_cons]
        omega

/-- C1: for every list of enabled servers successfully read from the
registry, `connect_all_enabled` returns without error; with the empty list
it returns no connections and no failure logs, and with N servers of which
k fail to establish it returns exactly N − k connections and logs exactly k
failures — no per-server error ever fails the batch.  Only a failure of the
registry read itself is surfaced, unchanged, to the caller. -/
theorem connect_all_enabled_partial_failure (r : Registry)
    (connect : McpServer → Except String MCPConnection) :
    (∀ servers, get_enabled_mcp_servers r = .ok servers →
      ∃ conns logs, connect_all_enabled r connect = .ok (conns, logs) ∧
        logs.length = servers.countP (fun s => !(connect s).toBool) ∧
        conns.length = servers.length - logs.length ∧
        conns.length + logs.length = servers.length ∧
        (servers = [] → conns = [] ∧ logs = [])) ∧
    (∀ e, get_enabled_mcp_servers r = .error e →
      connect_all_enabled r connect = .error e) := by
  constructor
  · intro servers hread
    by_cases hemp : servers.isEmpty
    · have hnil : servers = [] := List.isEmpty_iff.1 hemp
      refine ⟨[], [], ?_, ?_, ?_, ?_, fun _ => ⟨rfl, rfl⟩⟩ <;>
        simp [connect_all_enabled, hread, hnil]
    · obtain ⟨hcount, hsum⟩ := connectLoop_spec connect servers
      refine ⟨(connectLoop connect servers).1, (connectLoop connect servers).2,
        ?_, hcount, ?_, hsum, ?_⟩
      · simp [connect_all_enabled, hread, hemp]
      · omega
      · intro hnil
        exact absurd (by simp [hnil]) hemp
  · intro e hread
    simp [connect_all_enabled, hread]

/-- C1 witness: a registry holding one enabled server, probed with a
connect function that fails — the batch still returns Ok, with zero
connections and one logged failure. -/
theorem connect_all_enabled_partial_failure_witness :
    (get_enabled_mcp_servers
        [⟨1, "alpha", none, "http", some "https://a.example", none, none, none,
          true, false, "t0", "t0"⟩]
      = .ok [.http ⟨1, "alpha", none, true, false, "t0", "t0"⟩
          "https://a.example"]) ∧
    (∃ conns logs,
      connect_all_enabled
          [⟨1, "alpha", none, "http", some "https://a.example", none, none,
            none, true, false, "t0", "t0"⟩]
          (fun _ => .error "connection refused")
        = .ok (conns, logs) ∧
      logs.length
        = [McpServer.http ⟨1, "alpha", none, true, false, "t0", "t0"⟩
            "https://a.example"].countP
            (fun s => !((fun _ => Except.error "connection refused" :
                McpServer → Except String MCPConnection) s).toBool) ∧
      conns.length
        = [McpServer.http ⟨1, "alpha", none, true, false, "t0", "t0"⟩
            "https://a.example"].length - logs.length ∧
      conns.length + logs.length
        = [McpServer.http ⟨1, "alpha", none, true, false, "t0", "t0"⟩
            "https://a.example"].length ∧
      ([McpServer.http ⟨1, "alpha", none, true, false, "t0", "t0"⟩
          "https://a.example"] = ([] : List McpServer) →
        conns = [] ∧ logs = [])) :=
  ⟨by decide,
    (connect_all_enabled_partial_failure _ (fun _ => .error "connection refused")).1
      _ (by decide)⟩

/-! C10 — a user-created row sharing a built-in name aborts the seeder. -/

theorem no_native_row_of_nonNative (r : Registry) (row : DbRow)
    (hnodup : (r.map (fun x => x.name)).Nodup) (hmem : row ∈ r)
    (hnn : row.isNative = false) :
    r.any (fun x => x.name == row.name && x.isNative) = false := by
  rw [List.any_eq_false]
  intro x hx
  simp only [Bool.and_eq_true, beq_iff_eq, not_and]
  intro hname
  have hxrow : x = row := List.inj_on_of_nodup_map hnodup hx hmem hname
  rw [hxrow, hnn]
  simp

/-- C10: when the registry holds a non-native (user-created) row whose name
equals one of the built-in native descriptors (`ripestat` or `whois`) and
names are unique (the table's UNIQUE constraint), enabling the native
servers returns an error instead of skipping the descriptor: the existence
check matches only native-flagged rows, so the INSERT runs and violates the
unique-name constraint, aborting the seeding call. -/
theorem enable_native_name_conflict_errors (r : Registry) (ts : String)
    (hnodup : (r.map (fun x => x.name)).Nodup)
    (hconf : ∃ row ∈ r, row.isNative = false ∧
      (row.name = "ripestat" ∨ row.name = "whois")) :
    (enable_native_mcp_servers r true ts).2
      = some "UNIQUE constraint failed: mcp_servers.name" := by
  obtain ⟨row, hmem, hnn, hname⟩ := hconf
  have hany : ∀ n, row.name = n → r.any (fun x => x.name == n) = true := by
    intro n hn
    exact List.any_eq_true.2 ⟨row, hmem, by simp [hn]⟩
  have hnonat : ∀ n, row.name = n →
      r.any (fun x => x.name == n && x.isNative) = false := by
    intro n hn
    rw [← hn]
    exact no_native_row_of_nonNative r row hnodup hmem hnn
  show (seedLoop ts get_native_mcp_servers r).2 = _
  rcases hname with hrip | hwho
  · have h1 : r.any (fun x =>
        x.name == (CreateMcpServer.http "ripestat"
          (some "RIPEstat MCP Server for BGP and routing information")
          "https://mcp-ripestat.taihen.org/mcp" true).name && x.isNative)
        = false := hnonat _ hrip
    have h2 : r.any (fun x =>
        x.name == (CreateMcpServer.http "ripestat"
          (some "RIPEstat MCP Server for BGP and routing information")
          "https://mcp-ripestat.taihen.org/mcp" true).name) = true :=
      hany _ hrip
    simp [get_native_mcp_servers, seedLoop, h1, h2]
  · by_cases hr1 : r.any (fun x => x.name == "ripestat" && x.isNative)
    · have h2 : r.any (fun x => x.name == "whois" && x.isNative) = false :=
        hnonat _ hwho
      have h3 : r.any (fun x => x.name == "whois") = true := hany _ hwho
      simp [get_native_mcp_servers, seedLoop, CreateMcpServer.name, hr1, h2, h3]
    · by_cases hr2 : r.any (fun x => x.name == "ripestat")
      · simp [get_native_mcp_servers, seedLoop, CreateMcpServer.name, hr1, hr2]
      · set rrow := mkNativeRow
          (CreateMcpServer.http "ripestat"
            (some "RIPEstat MCP Server for BGP and routing information")
            "https://mcp-ripestat.taihen.org/mcp" true) (nextId r) ts with hrrow
        have hrname : rrow.name = "ripestat" := by rw [hrrow]; rfl
        have h2 : (r ++ [rrow]).any (fun x => x.name == "whois" && x.isNative)
            = false := by
          rw [List.any_append]
          have ha : r.any (fun x => x.name == "whois" && x.isNative) = false :=
            hnonat _ hwho
          have hb : [rrow].any (fun x => x.name == "whois" && x.isNative)
              = false := by
            simp [hrname]
          rw [ha, hb]
          rfl
        have h3 : (r ++ [rrow]).any (fun x => x.name == "whois") = true := by
          rw [List.any_append]
          rw [hany _ hwho]
          rfl
        simp [get_native_mcp_servers, seedLoop, CreateMcpServer.name, hr1, hr2,
          ← hrrow, h2, h3]

/-- C10 witness: one user-created (non-native) row named `ripestat`; the
seeding call aborts with the unique-name violation. -/
theorem enable_native_name_conflict_errors_witness :
    (([⟨1, "ripestat", none, "http", some "https://u.example", none, none,
        none, true, false, "t0", "t0"⟩] : Registry).map
        (fun x => x.name)).Nodup ∧
    (enable_native_mcp_servers
        [⟨1, "ripestat", none, "http", some "https://u.example", none, none,
          none, true, false, "t0", "t0"⟩] true "t1").2
      = some "UNIQUE constraint failed: mcp_servers.name" :=
  ⟨by decide,
    enable_native_name_conflict_errors _ "t1" (by decide)
      ⟨⟨1, "ripestat", none, "http", some "https://u.example", none, none,
          none, true, false, "t0", "t0"⟩, by decide, by decide, Or.inl rfl⟩⟩

/-! Lemmas about ids, row lookup and row parsing, used by the CRUD claims. -/

theorem le_foldl_max (l : List Nat) (init a : Nat) (h : a ∈ l ∨ a ≤ init) :
    a ≤ l.foldl max init := by
  induction l generalizing init with
  | nil =>
    rcases h with h | h
    · exact absurd h (List.not_mem_nil a)
    · exact h
  | cons x xs ih =>
    rcases h with h | h
    · rcases List.mem_cons.1 h with h | h
      · exact ih (max init x) (Or.inr (by rw [h]; exact le_max_right _ _))
      · exact ih (max init x) (Or.inl h)
    · exact ih (max init x) (Or.inr (le_trans h (le_max_left _ _)))

theorem mem_id_lt_nextId (r : Registry) (row : DbRow) (h : row ∈ r) :
    row.id < nextId r := by
  have : row.id ≤ (r.map (fun x => x.id)).foldl max 0 :=
    le_foldl_max _ 0 row.id (Or.inl (List.mem_map_of_mem _ h))
  unfold nextId
  omega

theorem find?_id_fresh (r : Registry) (row : DbRow) (i : Nat)
    (hfresh : ∀ x ∈ r, x.id ≠ i) (hid : row.id = i) :
    (r ++ [row]).find? (fun x => x.id == i) = some row := by
  rw [List.find?_append]
  have hnone : r.find? (fun x => x.id == i) = none := by
    rw [List.find?_eq_none]
    intro x hx
    simp [hfresh x hx]
  rw [hnone]
  simp [List.find?, hid]

theorem emptyNoneRound {α : Type} [DecidableEq α] (l : List α) :
    ((if l = [] then none else some l).getD ([] : List α)) = l := by
  cases l <;> simp

theorem get_ok_some_elim (r : Registry) (id : Nat) (s : McpServer)
    (h : get_mcp_server_by_id r id = .ok (some s)) :
    ∃ row, r.find? (fun x => x.id == id) = some row ∧
      rowToServer row = .ok s := by
  unfold get_mcp_server_by_id at h
  split at h
  · simp at h
  next row heq =>
    split at h
    next s2 hr =>
      simp only [Except.ok.injEq, Option.some.injEq] at h
      exact ⟨row, heq, by rw [hr, h]⟩
    next e hr => simp at h

theorem rowToServer_ok_kind (row : DbRow) (s : McpServer)
    (h : rowToServer row = .ok s) :
    (lowerString row.transportType = "http" ∧ s.kind = .http) ∨
    (lowerString row.transportType = "stdio" ∧ s.kind = .stdio) := by
  unfold rowToServer at h
  split at h
  next s2 heq =>
    obtain rfl : s2 = s := Except.ok.inj h
    unfold McpServer.from_row at heq
    split at heq
    · split at heq
      · simp at heq
      next u =>
        split at heq
        · simp at heq
        · obtain rfl := (Except.ok.inj heq).symm
          exact Or.inl ⟨by assumption, rfl⟩
    · split at heq
      · simp at heq
      next c =>
        split at heq
        · simp at heq
        · obtain rfl := (Except.ok.inj heq).symm
          exact Or.inr ⟨by assumption, rfl⟩
    · simp at heq
  next e heq => simp at h

theorem rowToServer_ok_required (row : DbRow) (s : McpServer)
    (h : rowToServer row = .ok s) : s.requiredFieldNonEmpty := by
  unfold rowToServer at h
  split at h
  next s2 heq =>
    obtain rfl : s2 = s := Except.ok.inj h
    unfold McpServer.from_row at heq
    split at heq
    · split at heq
      · simp at heq
      next u =>
        split at heq
        · simp at heq
        next hne =>
          obtain rfl := (Except.ok.inj heq).symm
          exact hne
    · split at heq
      · simp at heq
      next c =>
        split at heq
        · simp at heq
        next hne =>
          obtain rfl := (Except.ok.inj heq).symm
          exact hne
    · simp at heq
  next e heq => simp at h

theorem find?_map_upd (r : Registry) (id : Nat) (g : DbRow → DbRow)
    (hg : ∀ x, (g x).id = x.id) (row : DbRow)
    (h : r.find? (fun x => x.id == id) = some row) :
    (r.map (fun x => if x.id == id then g x else x)).find?
        (fun x => x.id == id) = some (g row) := by
  induction r with
  | nil => simp at h
  | cons y ys ih =>
    cases hyb : y.id == id with
    | true =>
      simp only [List.find?, hyb, Option.some.injEq] at h
      subst h
      simp [List.find?, List.map_cons, hyb, hg]
    | false =>
      simp only [List.find?, hyb] at h
      simp only [List.map_cons, hyb, Bool.false_eq_true, if_false,
        List.find?, hyb]
      exact ih h

/-! C8 — create-then-read round trip. -/

/-- C8: every valid create request with a fresh name succeeds, and re-reading
the created configuration by the returned id yields a configuration with the
identical transport kind and identical kind-specific fields — url for Http;
command, arguments and environment map for Stdio — including the
empty-arguments and empty-environment cases (stored as NULL and read back as
empty). -/
theorem create_then_read_roundtrip (r : Registry) (s : CreateMcpServer)
    (ts : String) (hval : s.validate = .ok ())
    (hfresh : ∀ row ∈ r, row.name ≠ s.name) :
    ∃ r2 srv, create_mcp_server r s ts = .ok (r2, srv) ∧
      get_mcp_server_by_id r2 srv.meta.id = .ok (some srv) ∧
      matchesCreate s srv := by
  cases s with
  | http n d u en =>
    have hn : n ≠ "" := by
      intro h0
      simp [CreateMcpServer.validate, h0] at hval
    have hu : u ≠ "" := by
      intro h0
      simp [CreateMcpServer.validate, h0, hn] at hval
    have hany : (r.any fun row => row.name == n) = false := by
      rw [List.any_eq_false]
      intro x hx
      simpa using hfresh x hx
    have hids : ∀ x ∈ r, x.id ≠ nextId r :=
      fun x hx => Nat.ne_of_lt (mem_id_lt_nextId r x hx)
    have hfind : (r ++ [(⟨nextId r, n, d, "http", some u, none, none, none, en,
        false, ts, ts⟩ : DbRow)]).find? (fun x => x.id == nextId r)
        = some ⟨nextId r, n, d, "http", some u, none, none, none, en, false,
            ts, ts⟩ :=
      find?_id_fresh r _ (nextId r) hids rfl
    have hlow : lowerString "http" = "http" := by decide
    have hget : get_mcp_server_by_id
        (r ++ [(⟨nextId r, n, d, "http", some u, none, none, none, en, false,
          ts, ts⟩ : DbRow)]) (nextId r)
        = .ok (some (.http ⟨nextId r, n, d, en, false, ts, ts⟩ u)) := by
      unfold get_mcp_server_by_id
      rw [hfind]
      simp [rowToServer, McpServer.from_row, hlow, hu]
    refine ⟨_, .http ⟨nextId r, n, d, en, false, ts, ts⟩ u, ?_, hget, ⟨rfl, rfl⟩⟩
    simp only [create_mcp_server, hval, hany, Bool.false_eq_true, if_false, hget]
  | stdio n d c a ev en =>
    have hn : n ≠ "" := by
      intro h0
      simp [CreateMcpServer.validate, h0] at hval
    have hc : c ≠ "" := by
      intro h0
      simp [CreateMcpServer.validate, h0, hn] at hval
    have hany : (r.any fun row => row.name == n) = false := by
      rw [List.any_eq_false]
      intro x hx
      simpa using hfresh x hx
    have hids : ∀ x ∈ r, x.id ≠ nextId r :=
      fun x hx => Nat.ne_of_lt (mem_id_lt_nextId r x hx)
    have hfind : (r ++ [(⟨nextId r, n, d, "stdio", none, some c,
        (if a.isEmpty then none else some a),
        (if ev.isEmpty then none else some ev), en, false, ts, ts⟩ : DbRow)]).find?
          (fun x => x.id == nextId r)
        = some ⟨nextId r, n, d, "stdio", none, some c,
            (if a.isEmpty then none else some a),
            (if ev.isEmpty then none else some ev), en, false, ts, ts⟩ :=
      find?_id_fresh r _ (nextId r) hids rfl
    have hlow : lowerString "stdio" = "stdio" := by decide
    have hget : get_mcp_server_by_id
        (r ++ [(⟨nextId r, n, d, "stdio", none, some c,
          (if a.isEmpty then none else some a),
          (if ev.isEmpty then none else some ev), en, false, ts, ts⟩ : DbRow)])
          (nextId r)
        = .ok (some (.stdio ⟨nextId r, n, d, en, false, ts, ts⟩ c a ev)) := by
      unfold get_mcp_server_by_id
      rw [hfind]
      simp [rowToServer, McpServer.from_row, hlow, hc, emptyNoneRound]
    refine ⟨_, .stdio ⟨nextId r, n, d, en, false, ts, ts⟩ c a ev, ?_, hget,
      ⟨rfl, rfl, rfl, rfl⟩⟩
    simp only [create_mcp_server, hval, hany, Bool.false_eq_true, if_false, hget]

/-- C8 witness: a Stdio create request with empty arguments and empty
environment, created in an empty registry and re-read by id. -/
theorem create_then_read_roundtrip_witness :
    ((CreateMcpServer.stdio "whois-test" none "uvx" [] [] true).validate
        = .ok ()) ∧
    (∃ r2 srv,
      create_mcp_server [] (.stdio "whois-test" none "uvx" [] [] true) "t0"
          = .ok (r2, srv) ∧
        get_mcp_server_by_id r2 srv.meta.id = .ok (some srv) ∧
        matchesCreate (.stdio "whois-test" none "uvx" [] [] true) srv) :=
  ⟨by decide,
    create_then_read_roundtrip [] (.stdio "whois-test" none "uvx" [] [] true)
      "t0" (by decide) (by simp)⟩

/-! C3 — updates preserve the transport kind and its required field. -/

theorem find?_map_tt (r : Registry) (id : Nat) (f : DbRow → DbRow)
    (row0 row1 : DbRow)
    (h0 : r.find? (fun x => x.id == id) = some row0)
    (h1 : (r.map (fun x => if x.id == id then f x else x)).find?
        (fun x => x.id == id) = some row1)
    (hfid : ∀ x, (f x).id = x.id)
    (hftt : ∀ x, (f x).transportType = x.transportType) :
    row1.transportType = row0.transportType := by
  have hg := find?_map_upd r id f hfid row0 h0
  rw [h1] at hg
  rw [Option.some.inj hg]
  exact hftt row0

/-- C3: a successful update returns a configuration with the original
transport kind (the UPDATE statement never touches `transport_type`) and a
non-empty kind-specific required field, and re-reading the row by id on the
updated registry succeeds with that same configuration. -/
theorem update_preserves_kind (r : Registry) (id : Nat) (u : UpdateMcpServer)
    (ts : String) (r2 : Registry) (srv2 : McpServer)
    (h : update_mcp_server r id u ts = .ok (r2, some srv2)) :
    ∃ srv, get_mcp_server_by_id r id = .ok (some srv) ∧
      srv2.kind = srv.kind ∧ srv2.requiredFieldNonEmpty ∧
      get_mcp_server_by_id r2 id = .ok (some srv2) := by
  unfold update_mcp_server at h
  split at h
  next e heq => simp at h
  next heq => simp at h
  next existing heq =>
    refine ⟨existing, heq, ?_⟩
    obtain ⟨row0, hfind0, hrow0⟩ := get_ok_some_elim r id existing heq
    cases existing with
    | http meta url0 =>
      dsimp only at h
      split at h
      · simp at h
      · split at h
        next e2 hg2 => simp at h
        next o2 hg2 =>
          simp only [Except.ok.injEq, Prod.mk.injEq] at h
          obtain ⟨hr2, ho2⟩ := h
          subst ho2
          subst hr2
          refine ⟨?_, ?_, by rw [hg2]⟩
          · obtain ⟨row1, hfind1, hrow1⟩ :=
              get_ok_some_elim _ id srv2 (by rw [hg2])
            have htt : row1.transportType = row0.transportType :=
              find?_map_tt r id _ row0 row1 hfind0 hfind1
                (fun x => rfl) (fun x => rfl)
            rcases rowToServer_ok_kind row0 _ hrow0 with ⟨ht0, _⟩ | ⟨_, hk0⟩
            · rcases rowToServer_ok_kind row1 srv2 hrow1 with
                ⟨_, hk1⟩ | ⟨ht1, _⟩
              · rw [hk1]; rfl
              · rw [htt, ht0] at ht1
                exact absurd ht1 (by decide)
            · exact absurd hk0 (by simp [McpServer.kind])
          · obtain ⟨row1, hfind1, hrow1⟩ :=
              get_ok_some_elim _ id srv2 (by rw [hg2])
            exact rowToServer_ok_required row1 srv2 hrow1
    | stdio meta c0 a0 ev0 =>
      dsimp only at h
      split at h
      · simp at h
      · split at h
        next e2 hg2 => simp at h
        next o2 hg2 =>
          simp only [Except.ok.injEq, Prod.mk.injEq] at h
          obtain ⟨hr2, ho2⟩ := h
          subst ho2
          subst hr2
          refine ⟨?_, ?_, by rw [hg2]⟩
          · obtain ⟨row1, hfind1, hrow1⟩ :=
              get_ok_some_elim _ id srv2 (by rw [hg2])
            have htt : row1.transportType = row0.transportType :=
              find?_map_tt r id _ row0 row1 hfind0 hfind1
                (fun x => rfl) (fun x => rfl)
            rcases rowToServer_ok_kind row0 _ hrow0 with ⟨_, hk0⟩ | ⟨ht0, _⟩
            · exact absurd hk0 (by simp [McpServer.kind])
            · rcases rowToServer_ok_kind row1 srv2 hrow1 with
                ⟨ht1, _⟩ | ⟨_, hk1⟩
              · rw [htt, ht0] at ht1
                exact absurd ht1 (by decide)
              · rw [hk1]; rfl
          · obtain ⟨row1, hfind1, hrow1⟩ :=
              get_ok_some_elim _ id srv2 (by rw [hg2])
            exact rowToServer_ok_required row1 srv2 hrow1

/-- C3 witness: renaming and disabling a stored Http server; the update
succeeds, the kind stays Http, the url stays non-empty and re-reading by id
succeeds. -/
theorem update_preserves_kind_witness :
    (update_mcp_server
        [⟨1, "alpha", none, "http", some "https://a.example", none, none, none,
          true, false, "t0", "t0"⟩]
        1 ⟨some "renamed", none, none, none, none, none, some false⟩ "t1"
      = .ok ([⟨1, "renamed", none, "http", some "https://a.example", none,
            none, none, false, false, "t0", "t1"⟩],
          some (.http ⟨1, "renamed", none, false, false, "t0", "t1"⟩
            "https://a.example"))) ∧
    (∃ srv,
      get_mcp_server_by_id
          [⟨1, "alpha", none, "http", some "https://a.example", none, none,
            none, true, false, "t0", "t0"⟩] 1
        = .ok (some srv) ∧
      (McpServer.http ⟨1, "renamed", none, false, false, "t0", "t1"⟩
          "https://a.example").kind = srv.kind ∧
      (McpServer.http ⟨1, "renamed", none, false, false, "t0", "t1"⟩
          "https://a.example").requiredFieldNonEmpty ∧
      get_mcp_server_by_id
          [⟨1, "renamed", none, "http", some "https://a.example", none, none,
            none, false, false, "t0", "t1"⟩] 1
        = .ok (some (.http ⟨1, "renamed", none, false, false, "t0", "t1"⟩
            "https://a.example"))) :=
  ⟨by decide,
    update_preserves_kind
      [⟨1, "alpha", none, "http", some "https://a.example", none, none, none,
        true, false, "t0", "t0"⟩]
      1 ⟨some "renamed", none, none, none, none, none, some false⟩ "t1"
      [⟨1, "renamed", none, "http", some "https://a.example", none, none, none,
        false, false, "t0", "t1"⟩]
      (.http ⟨1, "renamed", none, false, false, "t0", "t1"⟩ "https://a.example")
      (by decide)⟩

end AgentNoc
